import Mathlib

/-!
# Verification of the allergyTracker schedule-generation core

Shallow embedding of the server-side utilities `calculateProgressiveAmount`,
`calculateProgressiveTime` and `generateScheduleEntries` from the repository's
Express routes module, together with proofs of the specification claims about
them.

Modelling conventions:
* Calendar dates are represented as natural numbers counting whole days since
  1970-01-01 (the code parses ISO `YYYY-MM-DD` strings to UTC midnights and
  steps them one day at a time, so the day count determines the date exactly;
  `Date.prototype.getDay` becomes `weekday`, and the millisecond difference
  divided by 86400000 becomes plain day subtraction).  `daysFromCivil` maps a
  civil `y-m-d` date to its day number so that concrete examples can be stated
  with real calendar dates.
* JavaScript numbers appearing in the progression formulas are modelled as
  exact rationals; `NaN` is modelled explicitly as `Option.none` and
  propagated exactly where the code propagates it.  Decimal literals such as
  `0.33` are read as the exact rationals they denote.
* JavaScript truthiness tests (`!x`) on the nullable fields are modelled by
  `jsFalsyS` / `jsFalsyI`: a field is falsy when it is absent (`none`), the
  empty string, or the number 0, exactly as in the source.
* `Number(s)` coercion of the `HH:MM` fragments is modelled by `jsNumber`,
  which covers the whole-number strings (with surrounding whitespace and an
  optional sign) the time parser can meet; every other string is mapped to
  `none` (`NaN`).  `parseFloat` applied to a leading `[\d.]+` run is modelled
  by `jsParseFloatRun`, with `none` for the runs (dots only) that yield `NaN`.
* `String.prototype.toLowerCase` is modelled by `lowerAscii` (ASCII case
  mapping, which is all the recognized patterns exercise).
-/

/-- A char of the JS character class `[\d.]` (used by the amount regexes). -/
def isNumRunChar (c : Char) : Bool := c.isDigit || c == '.'

/-- Value of a string of decimal digits (the `parseInt`/`parseFloat` digit part). -/
def digitsToNat (l : List Char) : Nat :=
  l.foldl (fun a c => a * 10 + (c.toNat - 48)) 0

/-- Whitespace trimming of a character list (the trim JS `Number` performs
on its argument before conversion). -/
def trimChars (l : List Char) : List Char :=
  ((l.dropWhile Char.isWhitespace).reverse.dropWhile Char.isWhitespace).reverse

/-- JS `String.prototype.split(sep)` for a one-character separator, on the
character list of the string: `"a:b"` becomes `["a", "b"]`, the empty string
becomes `[""]`, and adjacent separators produce empty fragments. -/
def splitOnChar (sep : Char) : List Char → List (List Char)
  | [] => [[]]
  | c :: cs =>
    if c = sep then [] :: splitOnChar sep cs
    else
      match splitOnChar sep cs with
      | h :: t => (c :: h) :: t
      | [] => [[c]]

/-- JS `Number(s)` coercion, on the integral strings relevant to `HH:MM`
parsing: surrounding whitespace is ignored, the empty/blank string coerces
to `0`, an optionally signed digit string to its value, and anything else
(in particular any non-numeric text) to `NaN`, modelled as `none`.
(Non-integral numeric strings are outside the modelled domain.) -/
def jsNumber (s : List Char) : Option Int :=
  let t := trimChars s
  if t = [] then some 0
  else
    match t with
    | '-' :: r => if r ≠ [] ∧ r.all Char.isDigit then some (-(digitsToNat r : Int)) else none
    | '+' :: r => if r ≠ [] ∧ r.all Char.isDigit then some ((digitsToNat r : Int)) else none
    | r => if r.all Char.isDigit then some ((digitsToNat r : Int)) else none

/-- JS falsiness of a nullable string (`!x`): absent or empty. -/
def jsFalsyS : Option String → Bool
  | none => true
  | some s => s == ""

/-- JS falsiness of a nullable number (`!x`): absent or zero. -/
def jsFalsyI : Option Int → Bool
  | none => true
  | some n => n == 0

/-- JS `x || null` on a nullable string: empty normalizes to null. -/
def jsOrNullS : Option String → Option String
  | none => none
  | some s => if s = "" then none else some s

/-- The leading `[\d.]+` run of a string (what `/^([\d.]+)/` captures;
empty when the regex does not match). -/
def numRun (s : String) : List Char := s.data.takeWhile isNumRunChar

/-- The remainder of a string after its leading `[\d.]+` run (the unit
suffix that `replace(/^[\d.]+/, …)` keeps). -/
def afterNumRun (s : String) : String := String.mk (s.data.dropWhile isNumRunChar)

/-- `parseFloat` on a nonempty `[\d.]+` run: integer digits, an optional dot,
fractional digits; a run with no digit before a second dot is `NaN` (`none`). -/
def jsParseFloatRun (l : List Char) : Option ℚ :=
  let d1 := l.takeWhile Char.isDigit
  let rest := l.dropWhile Char.isDigit
  let d2 := match rest with
    | '.' :: r => r.takeWhile Char.isDigit
    | _ => []
  if d1.isEmpty && d2.isEmpty then none
  else some ((digitsToNat d1 : ℚ) + (digitsToNat d2 : ℚ) / (10 : ℚ) ^ d2.length)

/-- The source's `parseAmount`: parse the leading numeric run of an amount
string, defaulting to 1 when the regex finds no run at all. -/
def jsParseAmount (s : String) : Option ℚ :=
  if (numRun s).isEmpty then some 1 else jsParseFloatRun (numRun s)

/-- `startingAmount.replace(/^[\d.]+/, repl)`: substitute the leading numeric
run, or return the string unchanged when there is no run. -/
def replaceNumRun (s repl : String) : String :=
  if (numRun s).isEmpty then s else repl ++ afterNumRun s

/-- Two-decimal formatting of a nonnegative hundredth count (`m` hundredths). -/
def fixedFmt (m : Nat) : String :=
  toString (m / 100) ++ "." ++ (if m % 100 < 10 then "0" else "") ++ toString (m % 100)

/-- JS `Number.prototype.toFixed(2)`: round to the nearest hundredth, ties
away from (above) the value, then print with exactly two decimals. -/
def toFixed2 (q : ℚ) : String :=
  let n : Int := Int.floor (q * 100 + 1 / 2)
  if n < 0 then "-" ++ fixedFmt n.natAbs else fixedFmt n.toNat

/-- `toFixed(2)` lifted to the `NaN` model: `NaN.toFixed(2)` is `"NaN"`. -/
def toFixedOpt : Option ℚ → String
  | none => "NaN"
  | some q => toFixed2 q

/-- The `custom` three-phase progression curve of the source (lines 44-54):
ramp to the midpoint for `p < 0.33`, plateau at the midpoint for
`0.33 ≤ p < 0.67`, ramp from midpoint to target afterwards. -/
def customCurve (s t p : ℚ) : ℚ :=
  if p < 33 / 100 then s + (t - s) * (1 / 2) * (p / (33 / 100))
  else if p < 67 / 100 then s + (t - s) * (1 / 2)
  else s + (t - s) * (1 / 2 + 1 / 2 * ((p - 67 / 100) / (33 / 100)))

/-- The `currentValue` computation of `calculateProgressiveAmount`
(lines 36-57), with `NaN` operand propagation: the three named progression
types combine both parsed values (so either `NaN` poisons the result), and an
unrecognized type falls back to the parsed starting value as-is. -/
def amountValue (pt : String) (sv tv : Option ℚ) (p : ℚ) : Option ℚ :=
  if pt = "buildup" then
    match sv, tv with
    | some s, some t => some (s + (t - s) * p)
    | _, _ => none
  else if pt = "reduction" then
    match sv, tv with
    | some s, some t => some (s - (s - t) * p)
    | _, _ => none
  else if pt = "custom" then
    match sv, tv with
    | some s, some t => some (customCurve s t p)
    | _, _ => none
  else sv

/-- Normalized progress of occurrence `occ` among `tot`
(line 34: `Math.min(occurrenceNumber / Math.max(totalOccurrences - 1, 1), 1)`). -/
def progressAt (occ tot : Nat) : ℚ :=
  min ((occ : ℚ) / max ((tot : ℚ) - 1) 1) 1

/-- `calculateProgressiveAmount` (source lines 8-61). -/
def calculateProgressiveAmount (sa ta pt : Option String) (pd : Option Int)
    (occ tot : Nat) : Option String :=
  match sa, ta, pt, pd with
  | some sa', some ta', some pt', some pd' =>
    if sa' = "" || ta' = "" || pt' = "" || pd' = 0 then jsOrNullS sa
    else if pt' = "static" then some sa'
    else
      some (replaceNumRun sa'
        (toFixedOpt (amountValue pt' (jsParseAmount sa') (jsParseAmount ta') (progressAt occ tot))))
  | _, _, _, _ => jsOrNullS sa

/-- The `hours * 60 + minutes` extraction of `calculateProgressiveTime`
(lines 74-75): split on `:`, coerce the first two parts with `Number`
(a missing second part is `undefined`, hence `NaN` in the sum). -/
def startMinutes (st : String) : Option Int :=
  let parts := splitOnChar ':' st.data
  let hours := jsNumber (parts.headD [])
  let minutes : Option Int :=
    match parts with
    | _ :: m :: _ => jsNumber m
    | _ => none
  match hours, minutes with
  | some h, some m => some (h * 60 + m)
  | _, _ => none

/-- The wrap of line 85: `((x % 1440) + 1440) % 1440` with JS's truncating `%`. -/
def jsWrap1440 (x : Int) : Int := (x.tmod 1440 + 1440).tmod 1440

/-- `padStart(2, '0')`. -/
def pad2 (s : String) : String :=
  if s.length < 2 then String.mk (List.replicate (2 - s.length) '0') ++ s else s

/-- `toString` of a JS number in the `NaN` model. -/
def intToStr : Option Int → String
  | none => "NaN"
  | some n => toString n

/-- `calculateProgressiveTime` (source lines 63-91). -/
def calculateProgressiveTime (st tp : Option String) (ta : Option Int)
    (occ : Nat) : Option String :=
  if jsFalsyS st || jsFalsyS tp || jsFalsyI ta || tp == some "static" then st
  else
    match st, tp, ta with
    | some st', some tp', some ta' =>
      let tm0 := startMinutes st'
      let tm := if tp' = "later" then tm0.map (fun x => x + ta' * occ)
                else if tp' = "earlier" then tm0.map (fun x => x - ta' * occ)
                else tm0
      let w := tm.map jsWrap1440
      let nh := w.map (fun x => x / 60)
      let nm := w.map (fun x => x.tmod 60)
      some (pad2 (intToStr nh) ++ ":" ++ pad2 (intToStr nm))
    | _, _, _ => st

/-- `getDay()` of the UTC date that is `d` days after 1970-01-01
(which was a Thursday, weekday 4). -/
def weekday (d : Nat) : Nat := (d + 4) % 7

/-- `frequency.includes(pat)`. -/
def jsIncludes (s pat : String) : Bool := decide (pat.data <:+: s.data)

/-- The first maximal digit run of the character list (what `/(\d+)/`
captures, scanning left to right). -/
def firstDigitRun : List Char → Option (List Char)
  | [] => none
  | c :: cs => if c.isDigit then some (c :: cs.takeWhile Char.isDigit) else firstDigitRun cs

/-- `parseInt` of the first digit run of the frequency text, defaulting to 3
when the text holds no digit (source lines 116-117 / 159-160). -/
def extractTimes (freq : String) : Nat :=
  match firstDigitRun freq.data with
  | some run => digitsToNat run
  | none => 3

/-- The "N times per week" branch ladder (source lines 119-133): a fixed
weekday set per extracted count, and no inclusion for any other count. -/
def timesBranch (times : Nat) (startDay d : Nat) : Bool :=
  if times == 7 then true
  else if times == 6 then weekday d != 0
  else if times == 5 then [1, 2, 3, 4, 5].contains (weekday d)
  else if times == 4 then [1, 2, 4, 5].contains (weekday d)
  else if times == 3 then [1, 3, 5].contains (weekday d)
  else if times == 2 then [2, 5].contains (weekday d)
  else if times == 1 then weekday d == weekday startDay
  else false

/-- The per-date inclusion test shared verbatim by the two passes of
`generateScheduleEntries` (source lines 109-139 and 152-182): the frequency
is already lowercased, `startDay` is the parsed start date and `d` the date
under test (always ≥ `startDay` when called). -/
def shouldInclude (freq : String) (startDay d : Nat) : Bool :=
  if freq == "daily" || freq == "every day" then true
  else if freq == "weekly" || freq == "once a week" then weekday d == weekday startDay
  else if jsIncludes freq "times per week" || jsIncludes freq "x week"
      || jsIncludes freq "times a week" then
    timesBranch (extractTimes freq) startDay d
  else if jsIncludes freq "every 2 days" || jsIncludes freq "every other day" then
    (d - startDay) % 2 == 0
  else true

/-- `String.prototype.toLowerCase` on the ASCII range
(all the recognized frequency patterns are ASCII). -/
def lowerAscii (s : String) : String := String.mk (s.data.map Char.toLower)

/-- The ascending day walk `startDate, startDate+1, …, endDate` performed by
both `while (date <= endDate)` loops; empty when `endDate < startDate`. -/
def rangeDays (s e : Nat) : List Nat := (List.range (e + 1 - s)).map (s + ·)

/-- The food descriptor fields consumed by the schedule generator. -/
structure Food where
  id : Nat
  frequency : String
  startingAmount : Option String
  targetAmount : Option String
  progressionType : Option String
  progressionDuration : Option Int
  startTime : Option String
  timeProgression : Option String
  timeProgressionAmount : Option Int
deriving DecidableEq

/-- One generated schedule entry (source lines 201-207), with the date kept
as its day number. -/
structure ScheduleEntry where
  foodId : Nat
  date : Nat
  calculatedAmount : Option String
  calculatedTime : Option String
  occurrenceNumber : Nat
deriving DecidableEq

/-- First pass of `generateScheduleEntries` (lines 106-148): the dates that
pass the inclusion test, in ascending order; its length is `totalOccurrences`. -/
def firstPassDates (freq : String) (startDay endDay : Nat) : List Nat :=
  (rangeDays startDay endDay).filter (shouldInclude freq startDay)

/-- Second pass of `generateScheduleEntries` (lines 151-213): walk the days,
and for each included date emit an entry with the progressive amount and time
at the running occurrence number, which advances only on included dates. -/
def secondPass (freq : String) (startDay : Nat) (food : Food) (total : Nat) :
    List Nat → Nat → List ScheduleEntry
  | [], _ => []
  | d :: ds, occ =>
    if shouldInclude freq startDay d then
      { foodId := food.id
        date := d
        calculatedAmount := calculateProgressiveAmount food.startingAmount food.targetAmount
          food.progressionType food.progressionDuration occ total
        calculatedTime := calculateProgressiveTime food.startTime food.timeProgression
          food.timeProgressionAmount occ
        occurrenceNumber := occ } :: secondPass freq startDay food total ds (occ + 1)
    else secondPass freq startDay food total ds occ

/-- `generateScheduleEntries` (source lines 94-216). -/
def generateScheduleEntries (food : Food) (startDay endDay : Nat) : List ScheduleEntry :=
  let freq := lowerAscii food.frequency
  let total := (firstPassDates freq startDay endDay).length
  secondPass freq startDay food total (rangeDays startDay endDay) 0

/-- Day number (days since 1970-01-01) of the civil date `y-m-d`
(proleptic Gregorian, `y ≥ 1970`), via the standard era decomposition. -/
def daysFromCivil (y m d : Nat) : Nat :=
  let y' := if m ≤ 2 then y - 1 else y
  let era := y' / 400
  let yoe := y' % 400
  let doy := (153 * ((m + 9) % 12) + 2) / 5 + (d - 1)
  let doe := yoe * 365 + yoe / 4 - yoe / 100 + doy
  era * 146097 + doe - 719468

/-! ## Structural lemmas about the two passes -/

theorem jsWrap1440_eq_emod (x : Int) : jsWrap1440 x = x % 1440 := by
  unfold jsWrap1440
  rcases le_or_lt 0 x with hx | hx
  · rw [Int.tmod_eq_emod hx (by norm_num), Int.tmod_eq_emod (by omega) (by norm_num)]
    omega
  · have hn : x.tmod 1440 = -((-x) % 1440) := by
      have h0 : (-x).tmod 1440 = -(x.tmod 1440) := by
        simp [Int.tmod_def, Int.neg_tdiv]
        ring
      rw [← Int.tmod_eq_emod (by omega : (0 : Int) ≤ -x) (by norm_num), h0]
      ring
    rw [hn, Int.tmod_eq_emod (by omega) (by norm_num)]
    omega

theorem secondPass_map_date (freq : String) (sD : Nat) (food : Food) (total : Nat)
    (ds : List Nat) : ∀ occ, (secondPass freq sD food total ds occ).map (fun en => en.date)
      = ds.filter (shouldInclude freq sD) := by
  induction ds with
  | nil => intro occ; rfl
  | cons d ds ih =>
    intro occ
    by_cases h : shouldInclude freq sD d = true
    · simp [secondPass, h, ih, List.filter_cons]
    · simp [secondPass, h, ih, List.filter_cons]

theorem secondPass_map_occ (freq : String) (sD : Nat) (food : Food) (total : Nat)
    (ds : List Nat) :
    ∀ occ, (secondPass freq sD food total ds occ).map (fun en => en.occurrenceNumber)
      = List.range' occ (ds.filter (shouldInclude freq sD)).length := by
  induction ds with
  | nil => intro occ; rfl
  | cons d ds ih =>
    intro occ
    by_cases h : shouldInclude freq sD d = true
    · simp [secondPass, h, ih, List.filter_cons, List.range'_succ]
    · simp [secondPass, h, ih, List.filter_cons]

theorem generate_map_date (food : Food) (s e : Nat) :
    (generateScheduleEntries food s e).map (fun en => en.date)
      = firstPassDates (lowerAscii food.frequency) s e := by
  unfold generateScheduleEntries firstPassDates
  exact secondPass_map_date _ _ _ _ _ 0

theorem mem_rangeDays {s e d : Nat} : d ∈ rangeDays s e ↔ s ≤ d ∧ d ≤ e := by
  simp only [rangeDays, List.mem_map, List.mem_range]
  constructor
  · rintro ⟨i, hi, rfl⟩
    omega
  · rintro ⟨h1, h2⟩
    exact ⟨d - s, by omega, by omega⟩

theorem pairwise_rangeDays (s e : Nat) : (rangeDays s e).Pairwise (· < ·) := by
  unfold rangeDays
  rw [List.pairwise_map]
  exact (List.pairwise_lt_range _).imp (by omega)

theorem rangeDays_eq_nil {s e : Nat} (h : e < s) : rangeDays s e = [] := by
  unfold rangeDays
  have h0 : e + 1 - s = 0 := by omega
  rw [h0]
  rfl

theorem mem_generate_dates (food : Food) (s e d : Nat) :
    d ∈ (generateScheduleEntries food s e).map (fun en => en.date)
      ↔ s ≤ d ∧ d ≤ e ∧ shouldInclude (lowerAscii food.frequency) s d = true := by
  rw [generate_map_date]
  unfold firstPassDates
  rw [List.mem_filter, mem_rangeDays]
  tauto

/-! ## Claim theorems -/

/-- C1: for every frequency text, start day and end day, the dates of the
generated schedule entries are strictly increasing and all lie within
`[startDate, endDate]` inclusive, and an inverted range (`endDate <
startDate`) produces the empty sequence (the generator is a total function,
so no error can be raised). -/
theorem generate_dates_sorted_bounded_total (food : Food) (s e : Nat) :
    ((generateScheduleEntries food s e).map (fun en => en.date)).Pairwise (· < ·)
    ∧ (∀ d ∈ (generateScheduleEntries food s e).map (fun en => en.date), s ≤ d ∧ d ≤ e)
    ∧ (e < s → generateScheduleEntries food s e = []) := by
  refine ⟨?_, ?_, ?_⟩
  · rw [generate_map_date]
    exact (pairwise_rangeDays s e).filter _
  · intro d hd
    have := (mem_generate_dates food s e d).1 hd
    exact ⟨this.1, this.2.1⟩
  · intro h
    simp [generateScheduleEntries, rangeDays_eq_nil h, secondPass]

/-- Witness for C1: a concrete inverted range (start 2025-01-03, end
2025-01-01) yields the empty entry list. -/
theorem generate_dates_sorted_bounded_total_witness :
    generateScheduleEntries ⟨1, "Daily", none, none, none, none, none, none, none⟩ 20091 20089
      = [] :=
  (generate_dates_sorted_bounded_total ⟨1, "Daily", none, none, none, none, none, none, none⟩
    20091 20089).2.2 (by decide)

/-- C7 counterexample: for the food "weekly" over the three days 2025-01-01
(Wednesday) to 2025-01-03, both passes agree on a single occurrence (the
produced occurrence numbers are exactly `[0]` and the counting pass finds 1
date), but the progress of that last entry is `0`, not `1` as the claim's
final clause asserts for every last entry. -/
theorem single_occurrence_progress_not_one :
    (generateScheduleEntries ⟨1, "weekly", none, none, none, none, none, none, none⟩
        20089 20091).map (fun en => en.occurrenceNumber) = [0]
    ∧ (firstPassDates (lowerAscii "weekly") 20089 20091).length = 1
    ∧ progressAt 0 1 ≠ 1 := by
  refine ⟨by decide, by decide, ?_⟩
  have h0 : progressAt 0 1 = 0 := by
    unfold progressAt
    norm_num [max_def, min_def]
  rw [h0]
  norm_num

/-- C7 (amended): the count produced by the first (counting) pass equals the
number of entries produced by the second pass, and the occurrence numbers
carried by the entries are exactly `0, 1, …, totalOccurrences - 1` in order
— the two passes classify the same dates, and the last entry carries
occurrence number `totalOccurrences - 1`.  Its progress reaches 1 whenever
`totalOccurrences ≥ 2`; a single-occurrence sequence instead has progress 0
(the divide-by-zero guard turns the denominator into 1, not the progress). -/
theorem two_pass_occurrence_numbering (food : Food) (s e : Nat) :
    ((firstPassDates (lowerAscii food.frequency) s e).length
        = (generateScheduleEntries food s e).length
    ∧ (generateScheduleEntries food s e).map (fun en => en.occurrenceNumber)
        = List.range (firstPassDates (lowerAscii food.frequency) s e).length)
    ∧ (2 ≤ (firstPassDates (lowerAscii food.frequency) s e).length →
        progressAt ((firstPassDates (lowerAscii food.frequency) s e).length - 1)
          ((firstPassDates (lowerAscii food.frequency) s e).length) = 1)
    ∧ progressAt 0 1 = 0 := by
  refine ⟨⟨?_, ?_⟩, ?_, ?_⟩
  · rw [← generate_map_date food s e]
    exact List.length_map _ _
  · rw [List.range_eq_range']
    unfold generateScheduleEntries firstPassDates
    exact secondPass_map_occ _ _ _ _ _ 0
  · intro htot
    unfold progressAt
    set tot := (firstPassDates (lowerAscii food.frequency) s e).length with htotdef
    have h1 : (1 : ℚ) ≤ (tot : ℚ) - 1 := by
      have h2 : (2 : ℚ) ≤ (tot : ℚ) := by exact_mod_cast htot
      linarith
    rw [Nat.cast_sub (by omega : 1 ≤ tot), Nat.cast_one, max_eq_left h1,
      div_self (by linarith : (tot : ℚ) - 1 ≠ 0)]
    exact min_self 1
  · unfold progressAt
    norm_num [max_def, min_def]

/-- Witness for C7 (amended): an unrecognized frequency over a three-day
range yields three entries numbered `[0, 1, 2]`, matching the counting pass,
and with three occurrences the last entry's progress is 1. -/
theorem two_pass_occurrence_numbering_witness :
    (firstPassDates (lowerAscii "whatever") 20089 20091).length
        = (generateScheduleEntries ⟨1, "whatever", none, none, none, none, none, none, none⟩
            20089 20091).length
    ∧ (generateScheduleEntries ⟨1, "whatever", none, none, none, none, none, none, none⟩
          20089 20091).map (fun en => en.occurrenceNumber) = [0, 1, 2]
    ∧ progressAt ((firstPassDates (lowerAscii "whatever") 20089 20091).length - 1)
        ((firstPassDates (lowerAscii "whatever") 20089 20091).length) = 1 :=
  ⟨(two_pass_occurrence_numbering ⟨1, "whatever", none, none, none, none, none, none, none⟩
      20089 20091).1.1,
   ((two_pass_occurrence_numbering ⟨1, "whatever", none, none, none, none, none, none, none⟩
      20089 20091).1.2).trans (by decide),
   (two_pass_occurrence_numbering ⟨1, "whatever", none, none, none, none, none, none, none⟩
      20089 20091).2.1 (by decide)⟩

theorem shouldInclude_of_times_family (freq : String)
    (h : (jsIncludes freq "times per week" || jsIncludes freq "x week"
          || jsIncludes freq "times a week") = true) (s d : Nat) :
    shouldInclude freq s d = timesBranch (extractTimes freq) s d := by
  have h1 : freq ≠ "daily" := by rintro rfl; revert h; decide
  have h2 : freq ≠ "every day" := by rintro rfl; revert h; decide
  have h3 : freq ≠ "weekly" := by rintro rfl; revert h; decide
  have h4 : freq ≠ "once a week" := by rintro rfl; revert h; decide
  simp [shouldInclude, h, h1, h2, h3, h4]

theorem shouldInclude_of_every_two (freq : String)
    (h : (jsIncludes freq "every 2 days" || jsIncludes freq "every other day") = true)
    (hnot : (jsIncludes freq "times per week" || jsIncludes freq "x week"
          || jsIncludes freq "times a week") = false) (s d : Nat) :
    shouldInclude freq s d = ((d - s) % 2 == 0) := by
  have h1 : freq ≠ "daily" := by rintro rfl; revert h; decide
  have h2 : freq ≠ "every day" := by rintro rfl; revert h; decide
  have h3 : freq ≠ "weekly" := by rintro rfl; revert h; decide
  have h4 : freq ≠ "once a week" := by rintro rfl; revert h; decide
  simp only [Bool.or_eq_false_iff] at hnot
  simp [shouldInclude, h, h1, h2, h3, h4, hnot.1, hnot.2]

/-- The weekday-set table exactly as the claim words it (spec §4.1 step 3):
`N=7` all days; `N=6` all except Sunday (weekday 0); `N=5` Monday through
Friday; `N=4` Monday, Tuesday, Thursday, Friday; `N=3` Monday, Wednesday,
Friday; `N=2` Tuesday, Friday; `N=1` the weekday of the start date.  This
definition follows the spec's words and is compared against the code's
`timesBranch`. -/
def specWeekdaySet (N wS wD : Nat) : Prop :=
  if N = 7 then True
  else if N = 6 then wD ≠ 0
  else if N = 5 then wD ∈ [1, 2, 3, 4, 5]
  else if N = 4 then wD ∈ [1, 2, 4, 5]
  else if N = 3 then wD ∈ [1, 3, 5]
  else if N = 2 then wD ∈ [2, 5]
  else if N = 1 then wD = wS
  else False

/-- C2: for a frequency in the "times per week" family whose extracted count
is `N ∈ [1,7]`, a date in range is scheduled exactly when its weekday lies in
the fixed weekday set the spec tabulates for `N` (for `N = 1`, the weekday of
the start date). -/
theorem times_per_week_fixed_weekday_sets (food : Food) (s e N : Nat)
    (hfam : (jsIncludes (lowerAscii food.frequency) "times per week"
        || jsIncludes (lowerAscii food.frequency) "x week"
        || jsIncludes (lowerAscii food.frequency) "times a week") = true)
    (hN : extractTimes (lowerAscii food.frequency) = N)
    (h1 : 1 ≤ N) (h7 : N ≤ 7) (d : Nat) (hsd : s ≤ d) (hde : d ≤ e) :
    d ∈ (generateScheduleEntries food s e).map (fun en => en.date)
      ↔ specWeekdaySet N (weekday s) (weekday d) := by
  rw [mem_generate_dates, shouldInclude_of_times_family _ hfam, hN]
  simp only [hsd, hde, true_and]
  have hcase : N = 1 ∨ N = 2 ∨ N = 3 ∨ N = 4 ∨ N = 5 ∨ N = 6 ∨ N = 7 := by omega
  rcases hcase with rfl | rfl | rfl | rfl | rfl | rfl | rfl <;>
    simp only [timesBranch, specWeekdaySet] <;> norm_num

/-- Witness for C2: expanding "3 times a week" from Wednesday 2025-01-01 for
14 days yields exactly the Mondays, Wednesdays and Fridays in range
(Jan 1, 3, 6, 8, 10, 13), and the theorem applies at this instance. -/
theorem times_per_week_fixed_weekday_sets_witness :
    (generateScheduleEntries ⟨1, "3 times a week", none, none, none, none, none, none, none⟩
        (daysFromCivil 2025 1 1) (daysFromCivil 2025 1 14)).map (fun en => en.date)
      = [daysFromCivil 2025 1 1, daysFromCivil 2025 1 3, daysFromCivil 2025 1 6,
         daysFromCivil 2025 1 8, daysFromCivil 2025 1 10, daysFromCivil 2025 1 13]
    ∧ (daysFromCivil 2025 1 6
        ∈ (generateScheduleEntries ⟨1, "3 times a week", none, none, none, none, none, none, none⟩
            (daysFromCivil 2025 1 1) (daysFromCivil 2025 1 14)).map (fun en => en.date)
        ↔ specWeekdaySet 3 (weekday (daysFromCivil 2025 1 1))
            (weekday (daysFromCivil 2025 1 6))) :=
  ⟨by decide,
   times_per_week_fixed_weekday_sets
     ⟨1, "3 times a week", none, none, none, none, none, none, none⟩
     (daysFromCivil 2025 1 1) (daysFromCivil 2025 1 14) 3
     (by decide) (by decide) (by decide) (by decide)
     (daysFromCivil 2025 1 6) (by decide) (by decide)⟩

/-- C6: for a frequency containing "every 2 days" or "every other day" that
is not captured by the earlier "times per week" family, a date in range is
scheduled exactly when its whole-day distance from the start date is even. -/
theorem every_two_days_parity (food : Food) (s e : Nat)
    (hfam : (jsIncludes (lowerAscii food.frequency) "every 2 days"
        || jsIncludes (lowerAscii food.frequency) "every other day") = true)
    (hnot : (jsIncludes (lowerAscii food.frequency) "times per week"
        || jsIncludes (lowerAscii food.frequency) "x week"
        || jsIncludes (lowerAscii food.frequency) "times a week") = false)
    (d : Nat) (hsd : s ≤ d) (hde : d ≤ e) :
    d ∈ (generateScheduleEntries food s e).map (fun en => en.date) ↔ (d - s) % 2 = 0 := by
  rw [mem_generate_dates, shouldInclude_of_every_two _ hfam hnot]
  simp [hsd, hde]

/-- Witness for C6: expanding "Every 2 days" from 2025-01-01 to 2025-01-07
yields January 1, 3, 5 and 7, and the theorem applies at this instance. -/
theorem every_two_days_parity_witness :
    (generateScheduleEntries ⟨1, "Every 2 days", none, none, none, none, none, none, none⟩
        (daysFromCivil 2025 1 1) (daysFromCivil 2025 1 7)).map (fun en => en.date)
      = [daysFromCivil 2025 1 1, daysFromCivil 2025 1 3, daysFromCivil 2025 1 5,
         daysFromCivil 2025 1 7]
    ∧ (daysFromCivil 2025 1 5
        ∈ (generateScheduleEntries ⟨1, "Every 2 days", none, none, none, none, none, none, none⟩
            (daysFromCivil 2025 1 1) (daysFromCivil 2025 1 7)).map (fun en => en.date)
        ↔ (daysFromCivil 2025 1 5 - daysFromCivil 2025 1 1) % 2 = 0) :=
  ⟨by decide,
   every_two_days_parity ⟨1, "Every 2 days", none, none, none, none, none, none, none⟩
     (daysFromCivil 2025 1 1) (daysFromCivil 2025 1 7) (by decide) (by decide)
     (daysFromCivil 2025 1 5) (by decide) (by decide)⟩

/-- C10: a "times per week" frequency whose extracted count lies outside
`1..7` produces no occurrences at all, over every date range: the family is
still recognized, so the every-day fallback is never reached, and no weekday
branch applies. -/
theorem times_out_of_range_empty (food : Food) (s e : Nat)
    (hfam : (jsIncludes (lowerAscii food.frequency) "times per week"
        || jsIncludes (lowerAscii food.frequency) "x week"
        || jsIncludes (lowerAscii food.frequency) "times a week") = true)
    (hout : extractTimes (lowerAscii food.frequency) < 1
        ∨ 7 < extractTimes (lowerAscii food.frequency)) :
    generateScheduleEntries food s e = [] := by
  have hsi : ∀ d, shouldInclude (lowerAscii food.frequency) s d = false := by
    intro d
    rw [shouldInclude_of_times_family _ hfam]
    simp [timesBranch,
      show extractTimes (lowerAscii food.frequency) ≠ 7 by omega,
      show extractTimes (lowerAscii food.frequency) ≠ 6 by omega,
      show extractTimes (lowerAscii food.frequency) ≠ 5 by omega,
      show extractTimes (lowerAscii food.frequency) ≠ 4 by omega,
      show extractTimes (lowerAscii food.frequency) ≠ 3 by omega,
      show extractTimes (lowerAscii food.frequency) ≠ 2 by omega,
      show extractTimes (lowerAscii food.frequency) ≠ 1 by omega]
  have h0 : firstPassDates (lowerAscii food.frequency) s e = [] := by
    unfold firstPassDates
    rw [List.filter_eq_nil_iff]
    intro a _
    simp [hsi a]
  have hmapnil : (generateScheduleEntries food s e).map (fun en => en.date) = [] := by
    rw [generate_map_date, h0]
  exact List.map_eq_nil_iff.mp hmapnil

/-- Witness for C10: "10 times a week" over the first week of 2025 generates
no entries. -/
theorem times_out_of_range_empty_witness :
    generateScheduleEntries ⟨1, "10 times a week", none, none, none, none, none, none, none⟩
        (daysFromCivil 2025 1 1) (daysFromCivil 2025 1 7) = [] :=
  times_out_of_range_empty
    ⟨1, "10 times a week", none, none, none, none, none, none, none⟩
    (daysFromCivil 2025 1 1) (daysFromCivil 2025 1 7) (by decide) (by decide)

theorem jsParseAmount_digits (s : String) (ds : List Char) (hrun : numRun s = ds)
    (hne : ds ≠ []) (hdig : ds.all Char.isDigit = true) :
    jsParseAmount s = some ((digitsToNat ds : ℚ)) := by
  have ht : ds.takeWhile Char.isDigit = ds := by
    rw [List.takeWhile_eq_self_iff]
    intro x hx
    exact List.all_eq_true.mp hdig x hx
  have hd : ds.dropWhile Char.isDigit = [] := by
    rw [List.dropWhile_eq_nil_iff]
    intro x hx
    exact List.all_eq_true.mp hdig x hx
  unfold jsParseAmount jsParseFloatRun
  rw [hrun]
  simp [ht, hd, hne, List.isEmpty_eq_false]
  norm_num [digitsToNat]

/-- C8: when any of the four progression fields is absent in the JS sense
(null, empty string, or zero duration), or the progression type is "static",
the amount calculator is the constant function returning `startingAmount`
unchanged — normalized to null exactly when `startingAmount` itself is
absent — for every occurrence index and total. -/
theorem static_or_absent_amount_passthrough (sa ta pt : Option String) (pd : Option Int)
    (i n : Nat)
    (h : jsFalsyS sa = true ∨ jsFalsyS ta = true ∨ jsFalsyS pt = true ∨ jsFalsyI pd = true
      ∨ pt = some "static") :
    calculateProgressiveAmount sa ta pt pd i n = jsOrNullS sa := by
  rcases sa with _ | sa' <;> rcases ta with _ | ta' <;> rcases pt with _ | pt' <;>
    rcases pd with _ | pd'
  all_goals try rfl
  simp only [jsFalsyS, jsFalsyI, beq_iff_eq, Option.some.injEq] at h
  rcases h with h | h | h | h | h
  · simp [calculateProgressiveAmount, h, jsOrNullS]
  · simp [calculateProgressiveAmount, h, jsOrNullS]
  · simp [calculateProgressiveAmount, h, jsOrNullS]
  · simp [calculateProgressiveAmount, h, jsOrNullS]
  · subst h
    by_cases hsa : sa' = ""
    · simp [calculateProgressiveAmount, hsa, jsOrNullS]
    · by_cases hta : ta' = ""
      · simp [calculateProgressiveAmount, hsa, hta, jsOrNullS]
      · by_cases hpd : pd' = 0
        · simp [calculateProgressiveAmount, hsa, hta, hpd, jsOrNullS]
        · simp [calculateProgressiveAmount, hsa, hta, hpd, jsOrNullS]

/-- Witness for C8: an absent target amount leaves a concrete starting
amount untouched at an arbitrary occurrence index. -/
theorem static_or_absent_amount_passthrough_witness :
    calculateProgressiveAmount (some "1 tsp") none (some "buildup") (some 30) 5 9
      = some "1 tsp" :=
  (static_or_absent_amount_passthrough (some "1 tsp") none (some "buildup") (some 30) 5 9
    (by decide)).trans (by decide)

/-- C3: with `progressionType = "buildup"` and all four amount fields
present (JS-truthy), when both amounts parse to numeric magnitudes and
`startingAmount` has a numeric prefix, the amount at occurrence `i` of `n`
is `start + (target - start) * p` with `p = min(i / max(n - 1, 1), 1)`,
formatted to two decimals and suffixed with the unit text of
`startingAmount`. -/
theorem buildup_amount_linear (sa ta : String) (dur : Int) (i n : Nat) (s t : ℚ)
    (hsa : sa ≠ "") (hta : ta ≠ "") (hdur : dur ≠ 0)
    (hrun : (numRun sa).isEmpty = false)
    (hps : jsParseAmount sa = some s) (hpt : jsParseAmount ta = some t) :
    calculateProgressiveAmount (some sa) (some ta) (some "buildup") (some dur) i n
      = some (toFixed2 (s + (t - s) * progressAt i n) ++ afterNumRun sa) := by
  simp [calculateProgressiveAmount, hsa, hta, hdur, amountValue, hps, hpt, toFixedOpt,
    replaceNumRun, hrun]

/-- C4: the custom progression curve holds a flat plateau across the middle
band: whenever the normalized progress `p` of occurrence `i` of `n`
satisfies `0.33 ≤ p < 0.67`, the computed value is exactly
`start + 0.5 * (target - start)`, independent of `p`. -/
theorem custom_plateau_value (s t : ℚ) (i n : Nat)
    (h1 : 33 / 100 ≤ progressAt i n) (h2 : progressAt i n < 67 / 100) :
    amountValue "custom" (some s) (some t) (progressAt i n)
      = some (s + 1 / 2 * (t - s)) := by
  have hc : amountValue "custom" (some s) (some t) (progressAt i n)
      = some (customCurve s t (progressAt i n)) := by
    simp [amountValue]
  rw [hc]
  unfold customCurve
  rw [if_neg (not_lt.mpr h1), if_pos h2]
  congr 1
  ring

/-- Zero-padded `HH:MM` rendering of a minute count in `[0, 1440)` (the
claim-side description of the output formatting). -/
def formatHHMM (w : Int) : String :=
  pad2 (toString (w / 60)) ++ ":" ++ pad2 (toString (w % 60))

/-- C5: for a start time that splits at the colon into two `Number`-parseable
parts `H` and `M`, progression "later" with nonzero amount `a` yields at
occurrence `i` the minute count `H*60 + M + a*i` and "earlier" the count
`H*60 + M - a*i`, wrapped into `[0, 1440)` by true (never negative) modulo
and printed as zero-padded `HH:MM`. -/
theorem time_progression_wraps (st : String) (hpart mpart : List Char) (H M : Int)
    (a : Int) (i : Nat) (tp : String)
    (hsplit : splitOnChar ':' st.data = [hpart, mpart])
    (hH : jsNumber hpart = some H) (hM : jsNumber mpart = some M)
    (hst : st ≠ "") (ha : a ≠ 0) (htp : tp = "later" ∨ tp = "earlier") :
    calculateProgressiveTime (some st) (some tp) (some a) i
      = some (formatHHMM ((H * 60 + M + (if tp = "later" then a * i else -(a * i))) % 1440)) := by
  have hsm : startMinutes st = some (H * 60 + M) := by
    unfold startMinutes
    rw [hsplit]
    simp [hH, hM]
  have hwrap : ∀ x : Int, jsWrap1440 x = x % 1440 := jsWrap1440_eq_emod
  have htm : ∀ x : Int, (x % 1440).tmod 60 = (x % 1440) % 60 := fun x =>
    Int.tmod_eq_emod (Int.emod_nonneg x (by norm_num)) (by norm_num)
  rcases htp with rfl | rfl
  · simp [calculateProgressiveTime, jsFalsyS, jsFalsyI, hst, ha, hsm, hwrap, formatHHMM,
      intToStr, htm]
  · simp [calculateProgressiveTime, jsFalsyS, jsFalsyI, hst, ha, hsm, hwrap, formatHHMM,
      intToStr, htm, sub_eq_add_neg]

/-- Witness for C3: "1 teaspoon" to "3 teaspoon" over 5 occurrences gives
"1.00 teaspoon" at occurrence 0, "2.00 teaspoon" at occurrence 2 and
"3.00 teaspoon" at occurrence 4. -/
theorem buildup_amount_linear_witness :
    calculateProgressiveAmount (some "1 teaspoon") (some "3 teaspoon") (some "buildup")
        (some 30) 0 5 = some "1.00 teaspoon"
    ∧ calculateProgressiveAmount (some "1 teaspoon") (some "3 teaspoon") (some "buildup")
        (some 30) 2 5 = some "2.00 teaspoon"
    ∧ calculateProgressiveAmount (some "1 teaspoon") (some "3 teaspoon") (some "buildup")
        (some 30) 4 5 = some "3.00 teaspoon" := by
  have hd1 : digitsToNat ['1'] = 1 := by decide
  have hd3 : digitsToNat ['3'] = 3 := by decide
  have hps : jsParseAmount "1 teaspoon" = some 1 := by
    rw [jsParseAmount_digits "1 teaspoon" ['1'] (by decide) (by decide) (by decide), hd1]
    norm_num
  have hpt : jsParseAmount "3 teaspoon" = some 3 := by
    rw [jsParseAmount_digits "3 teaspoon" ['3'] (by decide) (by decide) (by decide), hd3]
    norm_num
  have hp0 : progressAt 0 5 = 0 := by unfold progressAt; norm_num [max_def, min_def]
  have hp2 : progressAt 2 5 = 1 / 2 := by unfold progressAt; norm_num [max_def, min_def]
  have hp4 : progressAt 4 5 = 1 := by unfold progressAt; norm_num [max_def, min_def]
  have hf1 : toFixed2 1 = "1.00" := by rw [toFixed2]; norm_num; decide
  have hf2 : toFixed2 2 = "2.00" := by rw [toFixed2]; norm_num; decide
  have hf3 : toFixed2 3 = "3.00" := by rw [toFixed2]; norm_num; decide
  refine ⟨?_, ?_, ?_⟩
  · rw [buildup_amount_linear "1 teaspoon" "3 teaspoon" 30 0 5 1 3 (by decide) (by decide)
      (by decide) (by decide) hps hpt, hp0]
    rw [show (1 : ℚ) + (3 - 1) * 0 = 1 by norm_num, hf1]
    decide
  · rw [buildup_amount_linear "1 teaspoon" "3 teaspoon" 30 2 5 1 3 (by decide) (by decide)
      (by decide) (by decide) hps hpt, hp2]
    rw [show (1 : ℚ) + (3 - 1) * (1 / 2) = 2 by norm_num, hf2]
    decide
  · rw [buildup_amount_linear "1 teaspoon" "3 teaspoon" 30 4 5 1 3 (by decide) (by decide)
      (by decide) (by decide) hps hpt, hp4]
    rw [show (1 : ℚ) + (3 - 1) * 1 = 3 by norm_num, hf3]
    decide

/-- Witness for C4: occurrence 2 of 5 has progress 1/2, inside the plateau
band, and the computed value from 1 to 3 is exactly the midpoint 2. -/
theorem custom_plateau_value_witness :
    (33 / 100 ≤ progressAt 2 5 ∧ progressAt 2 5 < 67 / 100)
    ∧ amountValue "custom" (some 1) (some 3) (progressAt 2 5) = some 2 := by
  have hp2 : progressAt 2 5 = 1 / 2 := by unfold progressAt; norm_num [max_def, min_def]
  have hb1 : (33 : ℚ) / 100 ≤ progressAt 2 5 := by rw [hp2]; norm_num
  have hb2 : progressAt 2 5 < 67 / 100 := by rw [hp2]; norm_num
  refine ⟨⟨hb1, hb2⟩, ?_⟩
  rw [custom_plateau_value 1 3 2 5 hb1 hb2]
  norm_num

/-- Witness for C5: start time "23:30" with "later" progression of 60
minutes wraps at occurrence 1 across midnight to "00:30". -/
theorem time_progression_wraps_witness :
    calculateProgressiveTime (some "23:30") (some "later") (some 60) 1 = some "00:30" := by
  rw [time_progression_wraps "23:30" ['2', '3'] ['3', '0'] 23 30 60 1 "later"
    (by decide) (by decide) (by decide) (by decide) (by decide) (Or.inl rfl)]
  decide

/-- C9 counterexample: `timeAt` on the malformed start time "noon" (with
progression "later" by 60 minutes, occurrence 1) returns the literal string
"NaN:NaN", not a raw pass-through of the unparseable input, refuting the
claimed raw-string fallback for times. -/
theorem malformed_time_not_raw :
    calculateProgressiveTime (some "noon") (some "later") (some 60) 1 = some "NaN:NaN"
    ∧ calculateProgressiveTime (some "noon") (some "later") (some 60) 1 ≠ some "noon" := by
  exact ⟨by decide, by decide⟩

/-- C9 (amended): malformed-but-present progression fields never raise (both
calculators are total functions) and follow the code's defensive defaults:
an amount string with no numeric prefix parses as magnitude 1 and — because
the substitution regex then has nothing to replace — the raw starting string
passes through unchanged; a start time whose colon-split parts do not all
coerce to numbers propagates `NaN`, so the output is the literal string
"NaN:NaN" rather than the raw input. -/
theorem malformed_fields_defensive :
    (∀ s, numRun s = [] → jsParseAmount s = some 1)
    ∧ (∀ sa ta pt : String, ∀ dur : Int, ∀ i n : Nat,
        sa ≠ "" → ta ≠ "" → pt ≠ "" → pt ≠ "static" → dur ≠ 0 → numRun sa = [] →
        calculateProgressiveAmount (some sa) (some ta) (some pt) (some dur) i n = some sa)
    ∧ (∀ st tp : String, ∀ a : Int, ∀ i : Nat,
        st ≠ "" → tp ≠ "" → tp ≠ "static" → a ≠ 0 → startMinutes st = none →
        calculateProgressiveTime (some st) (some tp) (some a) i = some "NaN:NaN") := by
  have hpad : pad2 "NaN" = "NaN" := by decide
  refine ⟨?_, ?_, ?_⟩
  · intro s h
    unfold jsParseAmount
    simp [h]
  · intro sa ta pt dur i n hsa hta hpt hstat hdur hrun
    simp [calculateProgressiveAmount, hsa, hta, hpt, hstat, hdur, replaceNumRun, hrun]
  · intro st tp a i hst htp hstat ha hsm
    simp [calculateProgressiveTime, jsFalsyS, jsFalsyI, hst, htp, hstat, ha, hsm,
      intToStr, hpad]

/-- Witness for C9 (amended): the unit-only amount "a pinch" parses as
magnitude 1 and passes through a buildup progression untouched, and the
dot-separated time "09.30" (no colon) produces "NaN:NaN". -/
theorem malformed_fields_defensive_witness :
    (numRun "a pinch" = [] ∧ jsParseAmount "a pinch" = some 1)
    ∧ calculateProgressiveAmount (some "a pinch") (some "two pinches") (some "buildup")
        (some 30) 1 5 = some "a pinch"
    ∧ calculateProgressiveTime (some "09.30") (some "later") (some 15) 2 = some "NaN:NaN" :=
  ⟨⟨by decide, malformed_fields_defensive.1 "a pinch" (by decide)⟩,
   malformed_fields_defensive.2.1 "a pinch" "two pinches" "buildup" 30 1 5
     (by decide) (by decide) (by decide) (by decide) (by decide) (by decide),
   malformed_fields_defensive.2.2 "09.30" "later" 15 2
     (by decide) (by decide) (by decide) (by decide) (by decide)⟩
